import Mathlib

/-!
Verification of the ST7789 clock / failsafe supervisor repository.

The definitions below are a shallow embedding of `src/failsafe.cpp` and
`src/clock.cpp`: stateful C++ is rendered as explicit state passing and
event traces, machine integers as `Nat`/`Int` with explicit truncation
where the C types truncate.
-/

namespace ClockFailsafe

/-! ## Supervisor (src/failsafe.cpp, main) -/

/-- Configuration constants of the supervisor loop
(`max_restarts`, `restart_window` in `src/failsafe.cpp` lines 280-281).
The window is carried as `Int` because the C code compares it against a
difference of `time_t` values. -/
structure Config where
  max_restarts : Nat
  restart_window : Int
deriving DecidableEq

/-- The restart ledger: `restart_count` and `first_restart_time`
(`src/failsafe.cpp` lines 279, 282).  `first_restart_time = 0` is the
initial sentinel, as in the C code. -/
structure Ledger where
  restart_count : Nat
  first_restart_time : Int
deriving DecidableEq

/-- Initial ledger state: `restart_count = 0`, `first_restart_time = 0`. -/
def initialLedger : Ledger := { restart_count := 0, first_restart_time := 0 }

/-- The ledger update performed after an abnormal child exit
(`src/failsafe.cpp` lines 329-335):

    if (first_restart_time == 0 || (now - first_restart_time) > restart_window) {
        first_restart_time = now; restart_count = 0;
    }
    restart_count++;
-/
def ledgerUpdate (cfg : Config) (st : Ledger) (now : Int) : Ledger :=
  let st2 :=
    if st.first_restart_time = 0 ∨ cfg.restart_window < now - st.first_restart_time then
      { restart_count := 0, first_restart_time := now }
    else st
  { st2 with restart_count := st2.restart_count + 1 }

/-- The circuit-breaker test `restart_count > max_restarts`
(`src/failsafe.cpp` line 337). -/
def breakerTrips (cfg : Config) (st : Ledger) : Bool :=
  cfg.max_restarts < st.restart_count

/-- Running the ledger update over a sequence of abnormal-exit timestamps,
starting from the initial state. -/
def ledgerRun (cfg : Config) (times : List Int) : Ledger :=
  times.foldl (ledgerUpdate cfg) initialLedger

/-- How a supervised child terminated: `WIFEXITED` with an exit code, or
`WIFSIGNALED` with a signal number. -/
inductive ChildOutcome where
  | exited (code : Nat)
  | signaled (sig : Nat)
deriving DecidableEq

/-- One observed child termination: the outcome, the wall-clock time
`time(nullptr)` read after `waitpid`, and whether the shutdown flag
`running` had been cleared by the signal handler by the time the
supervisor re-checks it (`if (!running)` at line 300). -/
structure ExitEvent where
  outcome : ChildOutcome
  time : Int
  stopRequested : Bool
deriving DecidableEq

/-- Externally visible actions of the supervisor loop. -/
inductive SupEvent where
  | fork
  | errorScreen
  | hwReset
  | sleepSec (n : Nat)
deriving DecidableEq

/-- `WIFEXITED(status) && WEXITSTATUS(status) == 0`
(`src/failsafe.cpp` lines 311-319). -/
def cleanExit : ChildOutcome → Bool
  | ChildOutcome.exited 0 => true
  | _ => false

/-- The supervisor main loop (`src/failsafe.cpp` lines 284-352), as a
function from the list of child terminations to the trace of actions and
the final ledger.  Each iteration forks a child (`fork` event) and then
consumes the next termination; an empty remainder means the child is
still running.  Branches, in source order: the `!running` shutdown check,
the clean-exit break, the ledger update with the circuit-breaker test
(error screen, `sleep(10)`, break), otherwise hardware reset recovery,
`sleep(2)`, and the next iteration. -/
def superviseLoop (cfg : Config) : Ledger → List ExitEvent → List SupEvent × Ledger
  | st, [] => ([SupEvent.fork], st)
  | st, e :: rest =>
    if e.stopRequested then ([SupEvent.fork], st)
    else if cleanExit e.outcome then ([SupEvent.fork], st)
    else
      let st2 := ledgerUpdate cfg st e.time
      if breakerTrips cfg st2 then
        ([SupEvent.fork, SupEvent.errorScreen, SupEvent.sleepSec 10], st2)
      else
        (SupEvent.fork :: SupEvent.hwReset :: SupEvent.sleepSec 2 ::
           (superviseLoop cfg st2 rest).1,
         (superviseLoop cfg st2 rest).2)

/-- The supervisor's signal handler (`src/failsafe.cpp` lines 37-42):
clears `running` and, if a child is live (`child_pid > 0`), sends it
SIGTERM (signal 15).  Returns the new `running` flag and the list of
(pid, signal) kills performed. -/
def signal_handler (child_pid : Int) : Bool × List (Int × Nat) :=
  (false, if 0 < child_pid then [(child_pid, 15)] else [])

/-! ### Ledger lemmas -/

/-- When the sentinel is set or the window has elapsed, the update resets
the ledger to count 1 with a fresh window start. -/
theorem ledgerUpdate_reset (cfg : Config) (st : Ledger) (now : Int)
    (h : st.first_restart_time = 0 ∨ cfg.restart_window < now - st.first_restart_time) :
    ledgerUpdate cfg st now = { restart_count := 1, first_restart_time := now } := by
  simp only [ledgerUpdate]
  rw [if_pos h]

/-- Inside the window (and with a recorded window start) the update is a
pure increment. -/
theorem ledgerUpdate_incr (cfg : Config) (st : Ledger) (now : Int)
    (h1 : ¬ st.first_restart_time = 0)
    (h2 : ¬ cfg.restart_window < now - st.first_restart_time) :
    ledgerUpdate cfg st now =
      { restart_count := st.restart_count + 1,
        first_restart_time := st.first_restart_time } := by
  simp only [ledgerUpdate]
  rw [if_neg (not_or.mpr ⟨h1, h2⟩)]

/-- Folding the update over exits that all stay within the window of the
recorded start `t` increments the count once per exit. -/
theorem foldl_ledger_within (cfg : Config) (ts : List Int) :
    ∀ (t : Int) (k c : Nat), t ≠ 0 →
      (∀ u ∈ ts, u - t ≤ cfg.restart_window) →
      List.foldl (ledgerUpdate cfg) ⟨c, t⟩ (ts.take k) = ⟨c + min k ts.length, t⟩ := by
  induction ts with
  | nil => intro t k c ht hw; simp
  | cons u ts ih =>
    intro t k c ht hw
    cases k with
    | zero => simp
    | succ k =>
      have hu : u - t ≤ cfg.restart_window := hw u (by simp)
      have step : ledgerUpdate cfg ⟨c, t⟩ u = ⟨c + 1, t⟩ :=
        ledgerUpdate_incr cfg ⟨c, t⟩ u ht (not_lt.mpr hu)
      rw [List.take_succ_cons, List.foldl_cons, step,
        ih t k (c + 1) ht (fun v hv => hw v (by simp [hv]))]
      simp only [List.length_cons, Ledger.mk.injEq]
      exact ⟨by omega, trivial⟩

/-- Folding the update over exits whose consecutive gaps all exceed the
window keeps the count at 1: every step takes the reset branch. -/
theorem foldl_ledger_spread (cfg : Config) (ts : List Int) :
    ∀ (prev : Int) (k : Nat),
      List.Chain' (fun a b => cfg.restart_window < b - a) (prev :: ts) →
      (List.foldl (ledgerUpdate cfg) ⟨1, prev⟩ (ts.take k)).restart_count ≤ 1 := by
  induction ts with
  | nil => intro prev k _; simp
  | cons u ts ih =>
    intro prev k hch
    rcases List.chain'_cons.mp hch with ⟨hrel, hch2⟩
    cases k with
    | zero => simp
    | succ k =>
      have step : ledgerUpdate cfg ⟨1, prev⟩ u = ⟨1, u⟩ :=
        ledgerUpdate_reset cfg ⟨1, prev⟩ u (Or.inr hrel)
      rw [List.take_succ_cons, List.foldl_cons, step]
      exact ih u k hch2

/-- C1: with maximum restart count R and window W, R+1 abnormal exits all
within W seconds of the first (positive timestamps) trip the circuit
breaker exactly on the (R+1)th exit and never earlier; R+1 exits whose
consecutive gaps each exceed W never trip it; and the ledger update with
a recorded window start resets the count to 1 when the elapsed time
exceeds W and otherwise increments it by one. -/
theorem supervisor_restart_ledger_circuit_breaker :
    (∀ (cfg : Config) (t : Int) (ts : List Int), 0 < t →
        (∀ u ∈ ts, u - t ≤ cfg.restart_window) →
        ts.length = cfg.max_restarts →
        (∀ k < cfg.max_restarts,
            breakerTrips cfg (ledgerRun cfg ((t :: ts).take (k + 1))) = false) ∧
        breakerTrips cfg (ledgerRun cfg (t :: ts)) = true) ∧
    (∀ (cfg : Config) (times : List Int), 1 ≤ cfg.max_restarts →
        times.Chain' (fun a b => cfg.restart_window < b - a) →
        ∀ k, breakerTrips cfg (ledgerRun cfg (times.take k)) = false) ∧
    (∀ (cfg : Config) (st : Ledger) (now : Int), st.first_restart_time ≠ 0 →
        (cfg.restart_window < now - st.first_restart_time →
            (ledgerUpdate cfg st now).restart_count = 1) ∧
        (now - st.first_restart_time ≤ cfg.restart_window →
            (ledgerUpdate cfg st now).restart_count = st.restart_count + 1)) := by
  refine ⟨?_, ?_, ?_⟩
  · intro cfg t ts ht hw hlen
    have h0 : ledgerUpdate cfg initialLedger t = ⟨1, t⟩ :=
      ledgerUpdate_reset cfg initialLedger t (Or.inl rfl)
    constructor
    · intro k hk
      have hrun : ledgerRun cfg ((t :: ts).take (k + 1)) = ⟨1 + min k ts.length, t⟩ := by
        rw [List.take_succ_cons]
        unfold ledgerRun
        rw [List.foldl_cons, h0, foldl_ledger_within cfg ts t k 1 ht.ne' hw]
      rw [hrun]
      simp only [breakerTrips, decide_eq_false_iff_not, not_lt]
      omega
    · have hall := foldl_ledger_within cfg ts t ts.length 1 ht.ne' hw
      rw [List.take_length] at hall
      have hrun : ledgerRun cfg (t :: ts) = ⟨1 + min ts.length ts.length, t⟩ := by
        unfold ledgerRun
        rw [List.foldl_cons, h0, hall]
      rw [hrun]
      simp only [breakerTrips, decide_eq_true_eq]
      omega
  · intro cfg times hR hch k
    cases times with
    | nil =>
      simp only [List.take_nil, ledgerRun, List.foldl_nil, breakerTrips, initialLedger,
        decide_eq_false_iff_not, not_lt]
      omega
    | cons t ts =>
      cases k with
      | zero =>
        simp only [List.take_zero, ledgerRun, List.foldl_nil, breakerTrips, initialLedger,
          decide_eq_false_iff_not, not_lt]
        omega
      | succ k =>
        have h0 : ledgerUpdate cfg initialLedger t = ⟨1, t⟩ :=
          ledgerUpdate_reset cfg initialLedger t (Or.inl rfl)
        have hcount := foldl_ledger_spread cfg ts t k hch
        unfold ledgerRun
        rw [List.take_succ_cons, List.foldl_cons, h0]
        simp only [breakerTrips, decide_eq_false_iff_not, not_lt]
        omega
  · intro cfg st now hne
    constructor
    · intro hgt
      rw [ledgerUpdate_reset cfg st now (Or.inr hgt)]
    · intro hle
      rw [ledgerUpdate_incr cfg st now hne (not_lt.mpr hle)]

/-- Witness for C1: R = 2, W = 10; exits at 5, 6, 7 trip exactly on the
third; exits at 5, 20, 35 never trip; the update at 20 from window start
5 resets to 1, at 7 it increments. -/
theorem supervisor_restart_ledger_circuit_breaker_witness :
    breakerTrips ⟨2, 10⟩ (ledgerRun ⟨2, 10⟩ (([5, 6, 7] : List Int).take 1)) = false ∧
    breakerTrips ⟨2, 10⟩ (ledgerRun ⟨2, 10⟩ (([5, 6, 7] : List Int).take 2)) = false ∧
    breakerTrips ⟨2, 10⟩ (ledgerRun ⟨2, 10⟩ ([5, 6, 7] : List Int)) = true ∧
    breakerTrips ⟨2, 10⟩ (ledgerRun ⟨2, 10⟩ (([5, 20, 35] : List Int).take 3)) = false ∧
    (ledgerUpdate ⟨2, 10⟩ ⟨2, 5⟩ 20).restart_count = 1 ∧
    (ledgerUpdate ⟨2, 10⟩ ⟨2, 5⟩ 7).restart_count = 3 :=
  ⟨(supervisor_restart_ledger_circuit_breaker.1 ⟨2, 10⟩ 5 [6, 7] (by decide)
      (by decide) rfl).1 0 (by decide),
   (supervisor_restart_ledger_circuit_breaker.1 ⟨2, 10⟩ 5 [6, 7] (by decide)
      (by decide) rfl).1 1 (by decide),
   (supervisor_restart_ledger_circuit_breaker.1 ⟨2, 10⟩ 5 [6, 7] (by decide)
      (by decide) rfl).2,
   supervisor_restart_ledger_circuit_breaker.2.1 ⟨2, 10⟩ [5, 20, 35] (by decide)
      (by norm_num [List.chain'_cons]) 3,
   (supervisor_restart_ledger_circuit_breaker.2.2 ⟨2, 10⟩ ⟨2, 5⟩ 20 (by decide)).1
      (by decide),
   (supervisor_restart_ledger_circuit_breaker.2.2 ⟨2, 10⟩ ⟨2, 5⟩ 7 (by decide)).2
      (by decide)⟩

/-! ### Supervisor loop lemmas -/

/-- Branch: shutdown was requested (`if (!running) break`, line 300). -/
theorem superviseLoop_stop (cfg : Config) (st : Ledger) (e : ExitEvent)
    (rest : List ExitEvent) (h : e.stopRequested = true) :
    superviseLoop cfg st (e :: rest) = ([SupEvent.fork], st) := by
  simp [superviseLoop, h]

/-- Branch: clean exit (`exit_code == 0`, lines 317-320). -/
theorem superviseLoop_clean (cfg : Config) (st : Ledger) (e : ExitEvent)
    (rest : List ExitEvent) (h1 : e.stopRequested = false)
    (h2 : cleanExit e.outcome = true) :
    superviseLoop cfg st (e :: rest) = ([SupEvent.fork], st) := by
  simp [superviseLoop, h1, h2]

/-- Branch: abnormal exit tripping the breaker (lines 337-342). -/
theorem superviseLoop_trip (cfg : Config) (st : Ledger) (e : ExitEvent)
    (rest : List ExitEvent) (h1 : e.stopRequested = false)
    (h2 : cleanExit e.outcome = false)
    (h3 : breakerTrips cfg (ledgerUpdate cfg st e.time) = true) :
    superviseLoop cfg st (e :: rest) =
      ([SupEvent.fork, SupEvent.errorScreen, SupEvent.sleepSec 10],
        ledgerUpdate cfg st e.time) := by
  simp [superviseLoop, h1, h2, h3]

/-- Branch: abnormal exit below the threshold, recovery then restart
(lines 344-346). -/
theorem superviseLoop_recover (cfg : Config) (st : Ledger) (e : ExitEvent)
    (rest : List ExitEvent) (h1 : e.stopRequested = false)
    (h2 : cleanExit e.outcome = false)
    (h3 : breakerTrips cfg (ledgerUpdate cfg st e.time) = false) :
    superviseLoop cfg st (e :: rest) =
      (SupEvent.fork :: SupEvent.hwReset :: SupEvent.sleepSec 2 ::
          (superviseLoop cfg (ledgerUpdate cfg st e.time) rest).1,
        (superviseLoop cfg (ledgerUpdate cfg st e.time) rest).2) := by
  simp [superviseLoop, h1, h2, h3]

/-- In every supervisor trace, whatever follows an `errorScreen` action is
exactly the 10-second cool-down: the error fill happens at most once and
no fork (nor anything else) ever follows it. -/
theorem superviseLoop_errorScreen_tail (cfg : Config) (events : List ExitEvent) :
    ∀ (st : Ledger) (l₁ l₂ : List SupEvent),
      (superviseLoop cfg st events).1 = l₁ ++ SupEvent.errorScreen :: l₂ →
      l₂ = [SupEvent.sleepSec 10] := by
  induction events with
  | nil =>
    intro st l₁ l₂ h
    simp only [superviseLoop] at h
    rcases l₁ with _ | ⟨a, l₁⟩ <;> simp_all
  | cons e rest ih =>
    intro st l₁ l₂ h
    cases hstop : e.stopRequested with
    | true =>
      rw [superviseLoop_stop cfg st e rest hstop] at h
      rcases l₁ with _ | ⟨a, l₁⟩ <;> simp_all
    | false =>
      cases hclean : cleanExit e.outcome with
      | true =>
        rw [superviseLoop_clean cfg st e rest hstop hclean] at h
        rcases l₁ with _ | ⟨a, l₁⟩ <;> simp_all
      | false =>
        cases htrip : breakerTrips cfg (ledgerUpdate cfg st e.time) with
        | true =>
          rw [superviseLoop_trip cfg st e rest hstop hclean htrip] at h
          rcases l₁ with _ | ⟨a, _ | ⟨b, _ | ⟨c, l₁⟩⟩⟩ <;> simp_all
        | false =>
          rw [superviseLoop_recover cfg st e rest hstop hclean htrip] at h
          rcases l₁ with _ | ⟨a, _ | ⟨b, _ | ⟨c, l₁⟩⟩⟩
          · simp at h
          · simp at h
          · simp at h
          · simp only [List.cons_append] at h
            injection h with h1 h
            injection h with h2 h
            injection h with h3 h
            exact ih (ledgerUpdate cfg st e.time) l₁ l₂ h

/-- C2: once an abnormal exit pushes the ledger count over the maximum,
the supervisor emits the error-screen fill, the fixed 10 s cool-down, and
stops — regardless of any further exits; and in every possible trace,
an `errorScreen` action is followed by exactly the cool-down and nothing
else, so the fill runs at most once and no child is forked after it. -/
theorem supervisor_circuit_open_failstop :
    (∀ (cfg : Config) (st : Ledger) (e : ExitEvent) (rest : List ExitEvent),
        e.stopRequested = false → cleanExit e.outcome = false →
        breakerTrips cfg (ledgerUpdate cfg st e.time) = true →
        superviseLoop cfg st (e :: rest) =
          ([SupEvent.fork, SupEvent.errorScreen, SupEvent.sleepSec 10],
            ledgerUpdate cfg st e.time)) ∧
    (∀ (cfg : Config) (st : Ledger) (events : List ExitEvent)
        (l₁ l₂ : List SupEvent),
        (superviseLoop cfg st events).1 = l₁ ++ SupEvent.errorScreen :: l₂ →
        l₂ = [SupEvent.sleepSec 10]) :=
  ⟨superviseLoop_trip,
   fun cfg st events => superviseLoop_errorScreen_tail cfg events st⟩

/-- Witness for C2: max restarts 0, one child death by SIGKILL at time 5:
the trace is fork, error screen, 10 s cool-down — even with a further
pending exit — and the tail after the error screen is the cool-down. -/
theorem supervisor_circuit_open_failstop_witness :
    superviseLoop ⟨0, 60⟩ initialLedger
        [⟨ChildOutcome.signaled 9, 5, false⟩, ⟨ChildOutcome.signaled 9, 6, false⟩] =
      ([SupEvent.fork, SupEvent.errorScreen, SupEvent.sleepSec 10],
        ledgerUpdate ⟨0, 60⟩ initialLedger 5) ∧
    ([SupEvent.sleepSec 10] : List SupEvent) = [SupEvent.sleepSec 10] :=
  ⟨supervisor_circuit_open_failstop.1 ⟨0, 60⟩ initialLedger
      ⟨ChildOutcome.signaled 9, 5, false⟩ [⟨ChildOutcome.signaled 9, 6, false⟩]
      rfl rfl (by decide),
   supervisor_circuit_open_failstop.2 ⟨0, 60⟩ initialLedger
      [⟨ChildOutcome.signaled 9, 5, false⟩, ⟨ChildOutcome.signaled 9, 6, false⟩]
      [SupEvent.fork] [SupEvent.sleepSec 10] (by decide)⟩

/-- C3: on a clean exit (explicit exit code 0, no pending shutdown
request) the supervisor stops at once: the trace holds only the fork that
started this child — no hardware reset, no error screen, no further fork —
and the ledger is returned unchanged. -/
theorem supervisor_clean_exit_stops :
    ∀ (cfg : Config) (st : Ledger) (e : ExitEvent) (rest : List ExitEvent),
      e.stopRequested = false → e.outcome = ChildOutcome.exited 0 →
      superviseLoop cfg st (e :: rest) = ([SupEvent.fork], st) ∧
      SupEvent.errorScreen ∉ (superviseLoop cfg st (e :: rest)).1 ∧
      SupEvent.hwReset ∉ (superviseLoop cfg st (e :: rest)).1 ∧
      (superviseLoop cfg st (e :: rest)).2 = st := by
  intro cfg st e rest h1 h2
  have hclean : cleanExit e.outcome = true := by rw [h2]; rfl
  have heq := superviseLoop_clean cfg st e rest h1 hclean
  refine ⟨heq, ?_, ?_, ?_⟩ <;> simp [heq]

/-- Witness for C3: a clean exit at time 42 with a nonempty ledger and a
further pending exit: the supervisor stops with the ledger untouched. -/
theorem supervisor_clean_exit_stops_witness :
    superviseLoop ⟨10, 60⟩ ⟨3, 7⟩
        [⟨ChildOutcome.exited 0, 42, false⟩, ⟨ChildOutcome.signaled 9, 43, false⟩] =
      ([SupEvent.fork], ⟨3, 7⟩) :=
  (supervisor_clean_exit_stops ⟨10, 60⟩ ⟨3, 7⟩ ⟨ChildOutcome.exited 0, 42, false⟩
    [⟨ChildOutcome.signaled 9, 43, false⟩] rfl rfl).1

/-- C4: an external stop request clears the run flag and sends SIGTERM to
the live child; when the supervisor then observes the flag after the
child's termination it stops immediately, leaving both ledger fields
unchanged, with no error screen, no recovery reset and no further fork —
whatever the child's exit outcome was. -/
theorem supervisor_external_stop :
    (∀ pid : Int, 0 < pid →
        (signal_handler pid).1 = false ∧ (pid, 15) ∈ (signal_handler pid).2) ∧
    (∀ (cfg : Config) (st : Ledger) (e : ExitEvent) (rest : List ExitEvent),
        e.stopRequested = true →
        superviseLoop cfg st (e :: rest) = ([SupEvent.fork], st) ∧
        (superviseLoop cfg st (e :: rest)).2.restart_count = st.restart_count ∧
        (superviseLoop cfg st (e :: rest)).2.first_restart_time =
          st.first_restart_time ∧
        SupEvent.errorScreen ∉ (superviseLoop cfg st (e :: rest)).1 ∧
        SupEvent.hwReset ∉ (superviseLoop cfg st (e :: rest)).1) := by
  constructor
  · intro pid h
    exact ⟨rfl, by simp [signal_handler, if_pos h]⟩
  · intro cfg st e rest h
    have heq := superviseLoop_stop cfg st e rest h
    refine ⟨heq, ?_, ?_, ?_, ?_⟩ <;> simp [heq]

/-- Witness for C4: a stop request with live child pid 7 sends it
SIGTERM; a stop observed at an abnormal exit (SIGTERM death) at time 42
leaves ledger (3, 7) unchanged and the trace at just the initial fork. -/
theorem supervisor_external_stop_witness :
    ((signal_handler 7).1 = false ∧ ((7 : Int), 15) ∈ (signal_handler 7).2) ∧
    superviseLoop ⟨10, 60⟩ ⟨3, 7⟩
        [⟨ChildOutcome.signaled 15, 42, true⟩, ⟨ChildOutcome.signaled 9, 43, false⟩] =
      ([SupEvent.fork], ⟨3, 7⟩) :=
  ⟨supervisor_external_stop.1 7 (by decide),
   (supervisor_external_stop.2 ⟨10, 60⟩ ⟨3, 7⟩ ⟨ChildOutcome.signaled 15, 42, true⟩
      [⟨ChildOutcome.signaled 9, 43, false⟩] rfl).1⟩

/-! ## Panel protocol driver (src/clock.cpp `ST7789_Driver`,
src/failsafe.cpp SPI helpers) -/

def ST7789_SWRESET : Nat := 0x01
def ST7789_SLPOUT : Nat := 0x11
def ST7789_NORON : Nat := 0x13
def ST7789_INVON : Nat := 0x21
def ST7789_DISPON : Nat := 0x29
def ST7789_CASET : Nat := 0x2A
def ST7789_RASET : Nat := 0x2B
def ST7789_RAMWR : Nat := 0x2C
def ST7789_MADCTL : Nat := 0x36
def ST7789_COLMOD : Nat := 0x3A
def COLOR_RED : Nat := 0xF800
def DISPLAY_WIDTH : Nat := 320
def DISPLAY_HEIGHT : Nat := 240

/-- Byte-level event on the panel link: a write to the hardware reset
line, a command byte (mode-select low), a data byte (mode-select high),
or a settle delay in microseconds (`bcm2835_delay` milliseconds are
converted to microseconds to share units with `usleep`). -/
inductive Ev where
  | rst (level : Bool)
  | cmd (b : Nat)
  | data (b : Nat)
  | delay (us : Nat)
deriving DecidableEq

/-- High byte of a 16-bit value as passed to an 8-bit write:
`(uint8_t)(v >> 8)`.  For a value stored in a `uint16_t` (`v % 65536`)
this equals `v / 256 % 256`. -/
def hi16 (v : Nat) : Nat := v / 256 % 256

/-- Low byte of a 16-bit value: `(uint8_t)(v & 0xFF)`. -/
def lo16 (v : Nat) : Nat := v % 256

/-- `ST7789_Driver::setAddrWindow` (src/clock.cpp lines 183-197):
CASET with x0, x1 as big-endian 16-bit values, RASET with y0, y1, then
RAMWR. -/
def setAddrWindow (x0 y0 x1 y1 : Nat) : List Ev :=
  [Ev.cmd ST7789_CASET,
   Ev.data (hi16 x0), Ev.data (lo16 x0), Ev.data (hi16 x1), Ev.data (lo16 x1),
   Ev.cmd ST7789_RASET,
   Ev.data (hi16 y0), Ev.data (lo16 y0), Ev.data (hi16 y1), Ev.data (lo16 y1),
   Ev.cmd ST7789_RAMWR]

/-- `ST7789_Driver::pushFramebuffer` (src/clock.cpp lines 209-222):
program the full window, then for each `i < width*height` write
`framebuffer[i] >> 8` and `framebuffer[i] & 0xFF` as data bytes. -/
def pushFramebuffer (fb : Nat → Nat) (width height : Nat) : List Ev :=
  setAddrWindow 0 0 (width - 1) (height - 1) ++
    ((List.range (width * height)).flatMap fun i =>
      [Ev.data (hi16 (fb i)), Ev.data (lo16 (fb i))])

/-- `ST7789_Driver::initDisplay` (src/clock.cpp lines 133-180): hardware
reset pulse (10/50/150 ms), SWRESET (200 ms), SLPOUT (120 ms), MADCTL
0x60, COLMOD 0x55, NORON (10 ms), INVON (10 ms), DISPON (120 ms). -/
def initDisplay : List Ev :=
  [Ev.rst true, Ev.delay 10000, Ev.rst false, Ev.delay 50000,
   Ev.rst true, Ev.delay 150000,
   Ev.cmd ST7789_SWRESET, Ev.delay 200000,
   Ev.cmd ST7789_SLPOUT, Ev.delay 120000,
   Ev.cmd ST7789_MADCTL, Ev.data 0x60,
   Ev.cmd ST7789_COLMOD, Ev.data 0x55,
   Ev.cmd ST7789_NORON, Ev.delay 10000,
   Ev.cmd ST7789_INVON, Ev.delay 10000,
   Ev.cmd ST7789_DISPON, Ev.delay 120000]

/-- `spi_write_data_u16` (src/failsafe.cpp lines 134-137): two data
bytes, high byte first. -/
def spi_write_data_u16 (v : Nat) : List Ev :=
  [Ev.data (hi16 v), Ev.data (lo16 v)]

/-- `display_error_screen` (src/failsafe.cpp lines 139-214): if the SPI
device opens, hardware reset pulse (10/50/150 ms via `usleep`), SWRESET,
SLPOUT, MADCTL 0x60, COLMOD 0x55, NORON, INVON, DISPON, then a
full-screen window and `DISPLAY_WIDTH*DISPLAY_HEIGHT` red pixels; if the
device cannot be opened the function returns before touching the panel. -/
def display_error_screen (spiOk : Bool) : List Ev :=
  if spiOk then
    [Ev.rst true, Ev.delay 10000, Ev.rst false, Ev.delay 50000,
     Ev.rst true, Ev.delay 150000,
     Ev.cmd ST7789_SWRESET, Ev.delay 200000,
     Ev.cmd ST7789_SLPOUT, Ev.delay 120000,
     Ev.cmd ST7789_MADCTL, Ev.data 0x60,
     Ev.cmd ST7789_COLMOD, Ev.data 0x55,
     Ev.cmd ST7789_NORON, Ev.delay 10000,
     Ev.cmd ST7789_INVON, Ev.delay 10000,
     Ev.cmd ST7789_DISPON, Ev.delay 120000] ++
    ([Ev.cmd ST7789_CASET] ++ spi_write_data_u16 0 ++
      spi_write_data_u16 (DISPLAY_WIDTH - 1) ++
     [Ev.cmd ST7789_RASET] ++ spi_write_data_u16 0 ++
      spi_write_data_u16 (DISPLAY_HEIGHT - 1) ++
     [Ev.cmd ST7789_RAMWR] ++
     ((List.range (DISPLAY_WIDTH * DISPLAY_HEIGHT)).flatMap fun _ =>
       spi_write_data_u16 COLOR_RED))
  else []

/-- Data-byte recognizer on link events. -/
def isData : Ev → Bool
  | Ev.data _ => true
  | _ => false

/-- The suffix of a trace after its last non-data event: the pixel burst
following the final command (`RAMWR`) of a window program. -/
def afterLastCmd (l : List Ev) : List Ev :=
  (l.reverse.takeWhile isData).reverse

/-- Number of 16-bit values in a burst of data bytes. -/
def pixel16Count (l : List Ev) : Nat := l.length / 2

/-! ### Trace lemmas -/

theorem takeWhile_all_append {α : Type} (p : α → Bool) (xs : List α) (y : α)
    (ys : List α) (hxs : ∀ x ∈ xs, p x = true) (hy : p y = false) :
    (xs ++ y :: ys).takeWhile p = xs := by
  induction xs with
  | nil => simp [List.takeWhile_cons, hy]
  | cons a xs ih =>
    have ha : p a = true := hxs a (by simp)
    simp [List.takeWhile_cons, ha, ih (fun x hx => hxs x (by simp [hx]))]

theorem afterLastCmd_append (pre : List Ev) (c : Nat) (tail : List Ev)
    (htail : ∀ e ∈ tail, isData e = true) :
    afterLastCmd (pre ++ Ev.cmd c :: tail) = tail := by
  unfold afterLastCmd
  rw [List.reverse_append, List.reverse_cons, List.append_assoc,
    List.singleton_append,
    takeWhile_all_append isData tail.reverse (Ev.cmd c) pre.reverse
      (fun x hx => htail x (List.mem_reverse.mp hx)) rfl]
  exact List.reverse_reverse tail

theorem length_bind_pair {α β : Type} (l : List α) (f g : α → β) :
    (l.flatMap fun a => [f a, g a]).length = 2 * l.length := by
  induction l with
  | nil => rfl
  | cons a l ih => simp only [List.flatMap_cons, List.length_append, ih,
      List.length_cons, List.length_nil, List.length_singleton]; omega

theorem afterLastCmd_pushFramebuffer (fb : Nat → Nat) (w h : Nat) :
    afterLastCmd (pushFramebuffer fb w h) =
      (List.range (w * h)).flatMap fun i =>
        [Ev.data (hi16 (fb i)), Ev.data (lo16 (fb i))] := by
  have htail : ∀ e ∈ (List.range (w * h)).flatMap
      (fun i => [Ev.data (hi16 (fb i)), Ev.data (lo16 (fb i))]),
      isData e = true := by
    intro e he
    rw [List.mem_flatMap] at he
    obtain ⟨i, -, hi⟩ := he
    simp only [List.mem_cons, List.not_mem_nil, or_false] at hi
    rcases hi with rfl | rfl <;> rfl
  have hsplit : pushFramebuffer fb w h =
      [Ev.cmd ST7789_CASET, Ev.data (hi16 0), Ev.data (lo16 0),
       Ev.data (hi16 (w - 1)), Ev.data (lo16 (w - 1)),
       Ev.cmd ST7789_RASET, Ev.data (hi16 0), Ev.data (lo16 0),
       Ev.data (hi16 (h - 1)), Ev.data (lo16 (h - 1))] ++
        Ev.cmd ST7789_RAMWR :: ((List.range (w * h)).flatMap fun i =>
          [Ev.data (hi16 (fb i)), Ev.data (lo16 (fb i))]) := by
    simp [pushFramebuffer, setAddrWindow]
  rw [hsplit, afterLastCmd_append _ _ _ htail]

theorem afterLastCmd_display_error_screen :
    afterLastCmd (display_error_screen true) =
      (List.range (DISPLAY_WIDTH * DISPLAY_HEIGHT)).flatMap fun _ =>
        [Ev.data (hi16 COLOR_RED), Ev.data (lo16 COLOR_RED)] := by
  have htail : ∀ e ∈ (List.range (DISPLAY_WIDTH * DISPLAY_HEIGHT)).flatMap
      (fun _ => [Ev.data (hi16 COLOR_RED), Ev.data (lo16 COLOR_RED)]),
      isData e = true := by
    intro e he
    rw [List.mem_flatMap] at he
    obtain ⟨i, -, hi⟩ := he
    simp only [List.mem_cons, List.not_mem_nil, or_false] at hi
    rcases hi with rfl | rfl <;> rfl
  have hsplit : display_error_screen true =
      ([Ev.rst true, Ev.delay 10000, Ev.rst false, Ev.delay 50000,
        Ev.rst true, Ev.delay 150000,
        Ev.cmd ST7789_SWRESET, Ev.delay 200000,
        Ev.cmd ST7789_SLPOUT, Ev.delay 120000,
        Ev.cmd ST7789_MADCTL, Ev.data 0x60,
        Ev.cmd ST7789_COLMOD, Ev.data 0x55,
        Ev.cmd ST7789_NORON, Ev.delay 10000,
        Ev.cmd ST7789_INVON, Ev.delay 10000,
        Ev.cmd ST7789_DISPON, Ev.delay 120000,
        Ev.cmd ST7789_CASET, Ev.data (hi16 0), Ev.data (lo16 0),
        Ev.data (hi16 (DISPLAY_WIDTH - 1)), Ev.data (lo16 (DISPLAY_WIDTH - 1)),
        Ev.cmd ST7789_RASET, Ev.data (hi16 0), Ev.data (lo16 0),
        Ev.data (hi16 (DISPLAY_HEIGHT - 1)), Ev.data (lo16 (DISPLAY_HEIGHT - 1))]) ++
        Ev.cmd ST7789_RAMWR :: ((List.range (DISPLAY_WIDTH * DISPLAY_HEIGHT)).flatMap
          fun _ => [Ev.data (hi16 COLOR_RED), Ev.data (lo16 COLOR_RED)]) := by
    simp [display_error_screen, spi_write_data_u16]
  rw [hsplit, afterLastCmd_append _ _ _ htail]

/-- C5: for the window `(0,0,width-1,height-1)` programmed by the refresh
operation, the trace is the window program followed by the pixel burst,
and the burst holds exactly `(x1-x0+1)*(y1-y0+1)` 16-bit values; likewise
the error-screen fill after its full-screen window writes exactly
`(319-0+1)*(239-0+1)` 16-bit values. -/
theorem window_pixel_count_exact :
    (∀ (fb : Nat → Nat) (width height : Nat), 1 ≤ width → 1 ≤ height →
        pushFramebuffer fb width height =
          setAddrWindow 0 0 (width - 1) (height - 1) ++
            afterLastCmd (pushFramebuffer fb width height) ∧
        pixel16Count (afterLastCmd (pushFramebuffer fb width height)) =
          ((width - 1) - 0 + 1) * ((height - 1) - 0 + 1)) ∧
    pixel16Count (afterLastCmd (display_error_screen true)) =
      ((DISPLAY_WIDTH - 1) - 0 + 1) * ((DISPLAY_HEIGHT - 1) - 0 + 1) := by
  constructor
  · intro fb width height hw hh
    constructor
    · rw [afterLastCmd_pushFramebuffer]
      rfl
    · rw [afterLastCmd_pushFramebuffer]
      unfold pixel16Count
      rw [length_bind_pair, List.length_range,
        Nat.mul_div_cancel_left _ (by norm_num : (0 : Nat) < 2),
        Nat.sub_zero, Nat.sub_zero, Nat.sub_add_cancel hw, Nat.sub_add_cancel hh]
  · have hgen : ∀ n : Nat, pixel16Count ((List.range n).flatMap fun _ =>
        [Ev.data (hi16 COLOR_RED), Ev.data (lo16 COLOR_RED)]) = n := by
      intro n
      unfold pixel16Count
      rw [length_bind_pair, List.length_range,
        Nat.mul_div_cancel_left _ (by norm_num : (0 : Nat) < 2)]
    rw [afterLastCmd_display_error_screen, hgen]
    norm_num [DISPLAY_WIDTH, DISPLAY_HEIGHT]

/-- Witness for C5 at the dimensions the renderer uses (320×240). -/
theorem window_pixel_count_exact_witness :
    pixel16Count (afterLastCmd (pushFramebuffer (fun _ => 0) 320 240)) =
      ((320 - 1) - 0 + 1) * ((240 - 1) - 0 + 1) :=
  (window_pixel_count_exact.1 (fun _ => 0) 320 240 (by decide) (by decide)).2

theorem range_mul_flatMap {β : Type} (w h : Nat) (F : Nat → Nat → List β) :
    (List.range (w * h)).flatMap (fun i => F (i % w) (i / w)) =
      (List.range h).flatMap fun y => (List.range w).flatMap fun x => F x y := by
  rcases Nat.eq_zero_or_pos w with rfl | hw
  · simp
  · induction h with
    | zero => simp
    | succ h ih =>
      rw [Nat.mul_succ, List.range_add, List.flatMap_append, ih,
        List.range_succ, List.flatMap_append, List.flatMap_map]
      simp only [List.flatMap_cons, List.flatMap_nil, List.append_nil]
      congr 1
      apply List.flatMap_congr
      intro x hx
      have hxw : x < w := List.mem_range.mp hx
      rw [Nat.add_comm (w * h) x, Nat.add_mul_mod_self_left,
        Nat.mod_eq_of_lt hxw, Nat.add_mul_div_left x h hw,
        Nat.div_eq_of_lt hxw, Nat.zero_add]

/-- C6: for every pixel pattern (all values 16-bit), the data bytes the
refresh operation writes after programming the window are exactly the
surface serialized row-major from the window's top-left corner, each
pixel as two bytes high byte first. -/
theorem refresh_stream_row_major :
    ∀ (pix : Nat → Nat → Nat) (width height : Nat),
      (∀ x y, x < width → y < height → pix x y < 65536) →
      afterLastCmd
          (pushFramebuffer (fun i => pix (i % width) (i / width)) width height) =
        (List.range height).flatMap fun y =>
          (List.range width).flatMap fun x =>
            [Ev.data (pix x y / 256), Ev.data (pix x y % 256)] := by
  intro pix width height hb
  refine (afterLastCmd_pushFramebuffer _ width height).trans ?_
  refine (range_mul_flatMap width height
    (fun x y => [Ev.data (hi16 (pix x y)), Ev.data (lo16 (pix x y))])).trans ?_
  apply List.flatMap_congr
  intro y hy
  apply List.flatMap_congr
  intro x hx
  have hv : pix x y < 65536 :=
    hb x y (List.mem_range.mp hx) (List.mem_range.mp hy)
  have hdiv : pix x y / 256 < 256 := Nat.div_lt_of_lt_mul (by omega)
  simp [hi16, lo16, Nat.mod_eq_of_lt hdiv]

/-- Witness for C6: a 2×2 pattern whose four pixel values are distinct. -/
theorem refresh_stream_row_major_witness :
    afterLastCmd
        (pushFramebuffer (fun i => (fun x y => 256 * x + y) (i % 2) (i / 2)) 2 2) =
      (List.range 2).flatMap fun y =>
        (List.range 2).flatMap fun x =>
          [Ev.data ((256 * x + y) / 256), Ev.data ((256 * x + y) % 256)] :=
  refresh_stream_row_major (fun x y => 256 * x + y) 2 2 (fun x y hx hy => by show 256 * x + y < 65536; omega)

/-! ## Link transport realizations (src/clock.cpp software SPI vs
src/failsafe.cpp spidev block transfers) -/

/-- GPIO pins of the software-SPI transport (src/clock.cpp lines 19-23):
chip select, data/command select, clock, data. -/
inductive Pin where
  | cs
  | dc
  | sclk
  | sdata
deriving DecidableEq

/-- `ST7789_Driver::spiWriteByte` (src/clock.cpp lines 67-83): for
`i = 7` down to `0`, drive the clock low, set the data line to bit `i`
of the byte (`byte & (1 << i)`), then drive the clock high.  The
optional micro-delay has no effect on levels and is omitted. -/
def spiWriteByte (b : Nat) : List (Pin × Bool) :=
  (List.range 8).flatMap fun k =>
    [(Pin.sclk, false), (Pin.sdata, b &&& (1 <<< (7 - k)) != 0), (Pin.sclk, true)]

/-- `ST7789_Driver::writeCommand` (src/clock.cpp lines 85-90): DC low,
CS low, the byte, CS high. -/
def writeCommand (c : Nat) : List (Pin × Bool) :=
  (Pin.dc, false) :: (Pin.cs, false) :: spiWriteByte c ++ [(Pin.cs, true)]

/-- `ST7789_Driver::writeData` (src/clock.cpp lines 92-97): DC high,
CS low, the byte, CS high. -/
def writeData (d : Nat) : List (Pin × Bool) :=
  (Pin.dc, true) :: (Pin.cs, false) :: spiWriteByte d ++ [(Pin.cs, true)]

/-- A command byte followed by a sequence of data bytes over the
bit-banged transport. -/
def bitbangTransaction (c : Nat) (ds : List Nat) : List (Pin × Bool) :=
  writeCommand c ++ ds.flatMap writeData

/-- What the panel observes on the wire from a GPIO trace: at each
rising clock edge, the current (mode-select, data-line) levels. -/
def sampleWire (dc sd : Bool) : List (Pin × Bool) → List (Bool × Bool)
  | [] => []
  | (Pin.dc, v) :: r => sampleWire v sd r
  | (Pin.sdata, v) :: r => sampleWire dc v r
  | (Pin.sclk, true) :: r => (dc, sd) :: sampleWire dc sd r
  | (Pin.sclk, false) :: r => sampleWire dc sd r
  | (Pin.cs, _) :: r => sampleWire dc sd r

/-- `spi_write_command` / `spi_write_data` (src/failsafe.cpp lines
114-132) as transfer records: the mode-select level written before the
`ioctl`, and the bytes of the transfer buffer. -/
def bulkTransaction (c : Nat) (ds : List Nat) : List (Bool × List Nat) :=
  [(false, [c]), (true, ds)]

/-- Modelled from the spec: the on-wire bit sequence of a
hardware-assisted block transfer — the kernel spidev path is not part of
this repository.  Per §4.1/§6 (word size 8 bits), each byte of the
buffer is clocked out most-significant-bit first, with the transfer's
mode-select level holding for every bit of every byte. -/
def spidevOnWire (trs : List (Bool × List Nat)) : List (Bool × Bool) :=
  trs.flatMap fun t =>
    t.2.flatMap fun b =>
      (List.range 8).map fun k => (t.1, b.testBit (7 - k))

/-! ### Transport lemmas -/

theorem and_two_pow_ne_zero_eq_testBit (b i : Nat) :
    (b &&& 2 ^ i != 0) = b.testBit i := by
  rw [Nat.and_two_pow]
  cases h : b.testBit i with
  | false => simp
  | true => simp [Nat.pos_iff_ne_zero.mp (Nat.two_pow_pos i)]

theorem and_mask_testBit (b : Nat) :
    ((b &&& 128 != 0) = b.testBit 7) ∧ ((b &&& 64 != 0) = b.testBit 6) ∧
    ((b &&& 32 != 0) = b.testBit 5) ∧ ((b &&& 16 != 0) = b.testBit 4) ∧
    ((b &&& 8 != 0) = b.testBit 3) ∧ ((b &&& 4 != 0) = b.testBit 2) ∧
    ((b &&& 2 != 0) = b.testBit 1) ∧ ((b % 2 == 1) = decide (b % 2 = 1)) := by
  refine ⟨?_, ?_, ?_, ?_, ?_, ?_, ?_, ?_⟩
  · rw [show (128 : Nat) = 2 ^ 7 by norm_num, and_two_pow_ne_zero_eq_testBit]
  · rw [show (64 : Nat) = 2 ^ 6 by norm_num, and_two_pow_ne_zero_eq_testBit]
  · rw [show (32 : Nat) = 2 ^ 5 by norm_num, and_two_pow_ne_zero_eq_testBit]
  · rw [show (16 : Nat) = 2 ^ 4 by norm_num, and_two_pow_ne_zero_eq_testBit]
  · rw [show (8 : Nat) = 2 ^ 3 by norm_num, and_two_pow_ne_zero_eq_testBit]
  · rw [show (4 : Nat) = 2 ^ 2 by norm_num, and_two_pow_ne_zero_eq_testBit]
  · rw [show (2 : Nat) = 2 ^ 1 by norm_num, and_two_pow_ne_zero_eq_testBit]
  · by_cases h : b % 2 = 1 <;> simp [h]

theorem sampleWire_writeData_chain (ds : List Nat) :
    ∀ dc sd : Bool,
      sampleWire dc sd (ds.flatMap writeData) =
        ds.flatMap fun d =>
          (List.range 8).map fun k => (true, d.testBit (7 - k)) := by
  induction ds with
  | nil => intro dc sd; rfl
  | cons d ds ih =>
    intro dc sd
    simp [List.flatMap_cons, writeData, spiWriteByte,
      show List.range 8 = [0, 1, 2, 3, 4, 5, 6, 7] from rfl,
      sampleWire, and_mask_testBit]
    rw [← List.flatMap_def, ih true (decide (d % 2 = 1))]
    apply List.flatMap_congr
    intro x hx
    simp [show List.range 8 = [0, 1, 2, 3, 4, 5, 6, 7] from rfl]

/-- C7: the software bit-banged realization and the hardware-assisted
block realization put bit-identical sequences on the wire for every
command byte and data byte sequence, with the same mode-select level for
every byte — whatever the initial levels of the mode-select and data
lines were. -/
theorem transport_realizations_equivalent :
    ∀ (c : Nat) (ds : List Nat) (dc0 sd0 : Bool),
      sampleWire dc0 sd0 (bitbangTransaction c ds) =
        spidevOnWire (bulkTransaction c ds) := by
  intro c ds dc0 sd0
  simp [bitbangTransaction, writeCommand, bulkTransaction, spidevOnWire,
    spiWriteByte, show List.range 8 = [0, 1, 2, 3, 4, 5, 6, 7] from rfl,
    sampleWire, and_mask_testBit, sampleWire_writeData_chain,
    List.flatMap_cons, List.flatMap_nil]

/-! ## Panel state machine (spec section 3 "Panel State", section 4.2) -/

/-- Modelled from the spec: the abstract panel controller states of
section 3 — the panel itself is hardware, not code of this repository. -/
inductive PanelState where
  | UNPOWERED
  | RESET_PENDING
  | AWAKE_UNCONFIGURED
  | CONFIGURED
  | ACTIVE
deriving DecidableEq

/-- Modelled from the spec: the panel's reaction to driver events
(section 4.2).  Asserting the reset line (driving it low) forces
RESET_PENDING from any prior state (step 1); SWRESET returns the
controller to RESET_PENDING; SLPOUT wakes it to AWAKE_UNCONFIGURED
(step 2); the configuration block ending with INVON leaves it CONFIGURED
(step 3); DISPON turns a CONFIGURED panel ACTIVE (step 4).  Data bytes,
delays, other commands and deasserting the reset line leave the state
unchanged. -/
def panelStep (s : PanelState) : Ev → PanelState
  | Ev.rst false => PanelState.RESET_PENDING
  | Ev.rst true => s
  | Ev.delay _ => s
  | Ev.data _ => s
  | Ev.cmd b =>
    if b = ST7789_SWRESET then PanelState.RESET_PENDING
    else if b = ST7789_SLPOUT then
      match s with
      | PanelState.RESET_PENDING => PanelState.AWAKE_UNCONFIGURED
      | _ => s
    else if b = ST7789_INVON then
      match s with
      | PanelState.AWAKE_UNCONFIGURED => PanelState.CONFIGURED
      | _ => s
    else if b = ST7789_DISPON then
      match s with
      | PanelState.CONFIGURED => PanelState.ACTIVE
      | _ => s
    else s

/-- Running the panel automaton over a driver trace. -/
def runPanel (s : PanelState) (evs : List Ev) : PanelState :=
  evs.foldl panelStep s

/-- The initialization routine's emission as a function of the panel
state it is invoked in: `initDisplay` reads nothing back from the panel
(the protocol is write-only), so it emits the same byte sequence from
every prior state. -/
def initDisplayFrom (s : PanelState) : List Ev := initDisplay

/-- Command-byte recognizer on link events. -/
def isCmdByte : Ev → Bool
  | Ev.cmd _ => true
  | _ => false

theorem runPanel_append (s : PanelState) (a b : List Ev) :
    runPanel s (a ++ b) = runPanel (runPanel s a) b := by
  unfold runPanel
  rw [List.foldl_append]

theorem runPanel_data_only (l : List Ev) :
    ∀ s : PanelState, (∀ e ∈ l, isData e = true) → runPanel s l = s := by
  induction l with
  | nil => intro s _; rfl
  | cons e l ih =>
    intro s hall
    have he := hall e (by simp)
    cases e with
    | data b =>
      rw [show runPanel s (Ev.data b :: l) = runPanel s l from rfl]
      exact ih s (fun x hx => hall x (by simp [hx]))
    | rst v => simp [isData] at he
    | cmd b => simp [isData] at he
    | delay n => simp [isData] at he

/-- C8: invoking the full initialization sequence twice in a row leaves
the panel in ACTIVE after each invocation, from every prior panel state,
and — because the write-only routine's emission depends on no state — the
byte sequence emitted by the second invocation is identical to the
first's. -/
theorem initDisplay_idempotent :
    ∀ s : PanelState,
      runPanel s (initDisplayFrom s) = PanelState.ACTIVE ∧
      runPanel (runPanel s (initDisplayFrom s))
        (initDisplayFrom (runPanel s (initDisplayFrom s))) = PanelState.ACTIVE ∧
      initDisplayFrom (runPanel s (initDisplayFrom s)) = initDisplayFrom s := by
  intro s
  cases s <;> exact ⟨by decide, by decide, rfl⟩

theorem errorFlood_all_data :
    ∀ e ∈ (List.range (DISPLAY_WIDTH * DISPLAY_HEIGHT)).flatMap
      (fun _ => spi_write_data_u16 COLOR_RED), isData e = true := by
  intro e he
  rw [List.mem_flatMap] at he
  obtain ⟨i, -, hi⟩ := he
  simp only [spi_write_data_u16, List.mem_cons, List.not_mem_nil, or_false] at hi
  rcases hi with rfl | rfl <;> rfl

/-- C9: the error/indicator mode with the SPI device available: its
trace is exactly the hardware reset pulse and full initialization
sequence followed by the full-drawable-area window program and the
alarm-color flood; its first six events are the reset pulse and contain
no command or data byte, so the reset precedes every command; the flood
writes the single fixed color 0xF800 for each of the 320x240 pixels; and
from every prior panel state the run ends ACTIVE — it never assumes the
panel is already CONFIGURED or ACTIVE. -/
theorem error_screen_always_full_reset :
    ∀ s : PanelState,
      display_error_screen true =
        initDisplay ++
          (setAddrWindow 0 0 (DISPLAY_WIDTH - 1) (DISPLAY_HEIGHT - 1) ++
            ((List.range (DISPLAY_WIDTH * DISPLAY_HEIGHT)).flatMap fun _ =>
              spi_write_data_u16 COLOR_RED)) ∧
      (display_error_screen true).take 6 =
        [Ev.rst true, Ev.delay 10000, Ev.rst false, Ev.delay 50000,
         Ev.rst true, Ev.delay 150000] ∧
      (∀ e ∈ (display_error_screen true).take 6,
        isCmdByte e = false ∧ isData e = false) ∧
      afterLastCmd (display_error_screen true) =
        ((List.range (DISPLAY_WIDTH * DISPLAY_HEIGHT)).flatMap fun _ =>
          [Ev.data (hi16 COLOR_RED), Ev.data (lo16 COLOR_RED)]) ∧
      runPanel s (display_error_screen true) = PanelState.ACTIVE := by
  have hsplit : display_error_screen true =
      (initDisplay ++ setAddrWindow 0 0 (DISPLAY_WIDTH - 1) (DISPLAY_HEIGHT - 1)) ++
        ((List.range (DISPLAY_WIDTH * DISPLAY_HEIGHT)).flatMap fun _ =>
          spi_write_data_u16 COLOR_RED) := by
    simp [display_error_screen, initDisplay, setAddrWindow, spi_write_data_u16]
  intro s
  refine ⟨by simp [hsplit], by decide, by decide,
    afterLastCmd_display_error_screen, ?_⟩
  rw [hsplit, runPanel_append, runPanel_data_only _ _ errorFlood_all_data]
  cases s <;> decide

/-! ## Clock renderer drawing (src/clock.cpp draw_rect, font_5x7,
draw_char, draw_text, and the per-second repaint in main) -/

/-- The 5x7 digit font (src/clock.cpp lines 240-251).  The C array is
declared `[10][7]` but each row lists only 5 initializers, so entries 5
and 6 of each row are zero. -/
def font_5x7 : List (List Nat) :=
  [[0x1F, 0x11, 0x11, 0x11, 0x1F, 0, 0],
   [0x00, 0x00, 0x1F, 0x00, 0x00, 0, 0],
   [0x1D, 0x15, 0x15, 0x15, 0x17, 0, 0],
   [0x11, 0x15, 0x15, 0x15, 0x1F, 0, 0],
   [0x07, 0x04, 0x04, 0x1F, 0x04, 0, 0],
   [0x17, 0x15, 0x15, 0x15, 0x1D, 0, 0],
   [0x1F, 0x15, 0x15, 0x15, 0x1D, 0, 0],
   [0x01, 0x01, 0x01, 0x01, 0x1F, 0, 0],
   [0x1F, 0x15, 0x15, 0x15, 0x1F, 0, 0],
   [0x17, 0x15, 0x15, 0x15, 0x1F, 0, 0]]

/-- `font_5x7[digit][row]`. -/
def fontByte (digit row : Nat) : Nat :=
  (font_5x7.getD digit []).getD row 0

/-- `draw_rect` (src/clock.cpp lines 231-237): the (px, py) coordinates
of every framebuffer store, in loop order.  `j` runs from `y` while
`j < y + h && j < 240`, `i` from `x` while `i < x + w && i < 320`; the
coordinates are C `int`s and there is no lower-bound check. -/
def draw_rect_stores (x y w h : Int) : List (Int × Int) :=
  (List.range (min (y + h) 240 - y).toNat).flatMap fun kj =>
    (List.range (min (x + w) 320 - x).toNat).map fun ki =>
      (x + (ki : Int), y + (kj : Int))

/-- `draw_char` (src/clock.cpp lines 253-283): the stores of one
character.  For a digit, each set font bit paints a scale-by-scale block
guarded only by `px < 320 && py < 240`; a colon paints two unguarded
scale-by-scale dots; every other character paints nothing. -/
def draw_char_stores (x y : Int) (c : Char) (scale : Nat) : List (Int × Int) :=
  if c.toNat < 48 ∨ 57 < c.toNat then
    if c = ':' then
      (List.range scale).flatMap fun dy =>
        (List.range scale).flatMap fun dx =>
          [(x + ((2 * scale + dx : Nat) : Int), y + ((1 * scale + dy : Nat) : Int)),
           (x + ((2 * scale + dx : Nat) : Int), y + ((5 * scale + dy : Nat) : Int))]
    else []
  else
    (List.range 7).flatMap fun row =>
      (List.range 5).flatMap fun col =>
        if fontByte (c.toNat - 48) row &&& (1 <<< col) != 0 then
          (List.range scale).flatMap fun dy =>
            (List.range scale).flatMap fun dx =>
              let px : Int := x + ((col * scale + dx : Nat) : Int)
              let py : Int := y + ((row * scale + dy : Nat) : Int)
              if px < 320 ∧ py < 240 then [(px, py)] else []
        else []

/-- `draw_text` (src/clock.cpp lines 285-291): characters left to right,
the cursor advancing by `(c == ':' ? 4 : 6) * scale`. -/
def draw_text_stores (x y : Int) (s : List Char) (scale : Nat) :
    List (Int × Int) :=
  match s with
  | [] => []
  | c :: cs =>
    draw_char_stores x y c scale ++
      draw_text_stores (x + (((if c = ':' then 4 else 6) * scale : Nat) : Int))
        y cs scale

/-- The per-second repaint of `main` (src/clock.cpp lines 333-348):
full-screen clear, the time string at scale 8 and `time_y = 60`, the
date string at scale 3 and `date_y = 160`, each horizontally centered
with `(320 - strlen * 6 * scale) / 2` in C `int` division (`Int.tdiv`
truncates toward zero, as C does). -/
def repaint_stores (time_str date_str : List Char) : List (Int × Int) :=
  draw_rect_stores 0 0 320 240 ++
    (draw_text_stores (Int.tdiv (320 - (time_str.length : Int) * 6 * 8) 2) 60
        time_str 8 ++
      draw_text_stores (Int.tdiv (320 - (date_str.length : Int) * 6 * 3) 2) 160
        date_str 3)

/-- C10 fails on the code: rendering the valid time "12:34:56" (every
time string has 8 characters, so the scale-8 text is 384 px wide on the
320 px screen and the centered origin is x = -32) produces framebuffer
stores with negative x coordinate — `draw_char`'s guard checks only the
upper bounds — which land at row-major index py*320+px inside the
previous row. -/
theorem repaint_store_negative_x :
    ((repaint_stores ("12:34:56".toList) ("2025-01-01".toList)).any
      fun p => decide (p.1 < 0)) = true := by
  unfold repaint_stores
  rw [List.any_append, List.any_append]
  have htime : (draw_text_stores
      (Int.tdiv (320 - (("12:34:56".toList).length : Int) * 6 * 8) 2) 60
      ("12:34:56".toList) 8).any (fun p => decide (p.1 < 0)) = true := by
    decide
  rw [htime]
  simp

end ClockFailsafe
